import Mathlib

/-!
Verification of the progress-tracking and persistence subsystem of the
course-player application.

The development shallowly embeds the TypeScript sources:
* `src/renderer/services/progressManager.ts` (retry, fallback load,
  debounced save, validation, merge),
* `src/store/slices/progressSlice.ts` (progress reducers and selectors),
* `src/renderer/store/slices/coursesSlice.ts` (course collection reducers).

JavaScript objects used as string-keyed maps are embedded as association
lists `List (String × α)` in property-insertion order; JS numbers are
embedded as `ℚ` (all arithmetic performed by the embedded code is exact at
this range, so the rational embedding agrees with IEEE doubles);
ISO-timestamp strings, which the code only ever compares through
`new Date(...)`, are embedded as their chronological value in `ℚ`.
Fallible operations return `Except String α`.
-/

namespace CoursePlayer

/-- Property read on a JS object embedded as an association list:
the value at the first matching key, `none` when the key is absent. -/
def getKey (m : List (String × α)) (k : String) : Option α :=
  match m with
  | [] => none
  | (k2, v) :: rest => if k2 = k then some v else getKey rest k

/-- Property write `m[k] = v` on a JS object: replaces the value in place
when the key is present (keeping its position), otherwise appends the new
key at the end, exactly as JS property assignment orders keys. -/
def setKey (m : List (String × α)) (k : String) (v : α) : List (String × α) :=
  if (getKey m k).isSome then
    m.map (fun e => if e.1 = k then (e.1, v) else e)
  else m ++ [(k, v)]

/-- Property deletion `delete m[k]` on a JS object. -/
def eraseKey (m : List (String × α)) (k : String) : List (String × α) :=
  m.filter (fun e => e.1 ≠ k)

theorem getKey_append (m1 m2 : List (String × α)) (k : String) :
    getKey (m1 ++ m2) k =
      match getKey m1 k with
      | some v => some v
      | none => getKey m2 k := by
  induction m1 with
  | nil => simp [getKey]
  | cons e rest ih =>
    obtain ⟨k2, v⟩ := e
    by_cases h : k2 = k <;> simp [getKey, h, ih]

theorem getKey_map_entry (m : List (String × α)) (f : String → α → α) (k : String) :
    getKey (m.map fun e => (e.1, f e.1 e.2)) k = (getKey m k).map (f k) := by
  induction m with
  | nil => simp [getKey]
  | cons e rest ih =>
    obtain ⟨k2, v⟩ := e
    by_cases h : k2 = k
    · subst h; simp [getKey, ih]
    · simp [getKey, h, ih]

theorem getKey_filter_key (m : List (String × α)) (q : String → Bool) (k : String) :
    getKey (m.filter fun e => q e.1) k = if q k then getKey m k else none := by
  induction m with
  | nil => simp [getKey]
  | cons e rest ih =>
    obtain ⟨k2, v⟩ := e
    by_cases hq : q k2
    · by_cases h : k2 = k
      · subst h; simp [getKey, hq]
      · simp [getKey, hq, h, ih]
    · by_cases h : k2 = k
      · subst h
        simp only [List.filter_cons]
        simp [getKey, hq, ih]
      · simp only [List.filter_cons]
        simp [getKey, hq, h, ih]

theorem getKey_setKey_self (m : List (String × α)) (k : String) (v : α) :
    getKey (setKey m k v) k = some v := by
  unfold setKey
  by_cases h : (getKey m k).isSome
  · simp only [h, if_true]
    have h2 := getKey_map_entry m (fun k2 v2 => if k2 = k then v else v2) k
    have hfun : (fun e : String × α => if e.1 = k then (e.1, v) else e) =
        (fun e : String × α => (e.1, if e.1 = k then v else e.2)) := by
      funext e
      by_cases he : e.1 = k <;> simp [he]
    rw [hfun, h2]
    obtain ⟨w, hw⟩ := Option.isSome_iff_exists.mp h
    simp [hw]
  · simp only [h, Bool.false_eq_true, if_false]
    rw [getKey_append]
    have hnone : getKey m k = none := by
      cases hg : getKey m k with
      | none => rfl
      | some w => rw [hg] at h; simp at h
    simp [hnone, getKey]

theorem getKey_setKey_ne (m : List (String × α)) (k k' : String) (v : α) (h : k' ≠ k) :
    getKey (setKey m k v) k' = getKey m k' := by
  unfold setKey
  by_cases hs : (getKey m k).isSome
  · simp only [hs, if_true]
    have h2 := getKey_map_entry m (fun k2 v2 => if k2 = k then v else v2) k'
    have hfun : (fun e : String × α => if e.1 = k then (e.1, v) else e) =
        (fun e : String × α => (e.1, if e.1 = k then v else e.2)) := by
      funext e
      by_cases he : e.1 = k <;> simp [he]
    rw [hfun, h2]
    cases hg : getKey m k' with
    | none => simp
    | some w => simp [h]
  · simp only [hs, Bool.false_eq_true, if_false]
    rw [getKey_append]
    cases hg : getKey m k' with
    | none => simp [getKey, Ne.symm h]
    | some w => simp

theorem getKey_eraseKey_self (m : List (String × α)) (k : String) :
    getKey (eraseKey m k) k = none := by
  induction m with
  | nil => simp [eraseKey, getKey]
  | cons e rest ih =>
    obtain ⟨k2, v⟩ := e
    by_cases h : k2 = k
    · subst h
      simpa [eraseKey] using ih
    · simpa [eraseKey, getKey, h] using ih

theorem getKey_eraseKey_ne (m : List (String × α)) (k k' : String) (h : k' ≠ k) :
    getKey (eraseKey m k) k' = getKey m k' := by
  induction m with
  | nil => simp [eraseKey, getKey]
  | cons e rest ih =>
    obtain ⟨k2, v⟩ := e
    by_cases h2 : k2 = k
    · subst h2
      simpa [eraseKey, getKey, Ne.symm h] using ih
    · by_cases h3 : k2 = k'
      · subst h3
        simp [eraseKey, getKey, h2]
      · simpa [eraseKey, getKey, h2, h3] using ih

/-! ## Raw JSON values

`validateProgressData` (progressManager.ts) inspects an untyped payload, so
its embedding works on a JS-value tree.  `undefinedVal` stands for JavaScript
`undefined` (the result of reading an absent property); it is distinct from
`nullv` because `typeof undefined = "undefined"` while `typeof null =
"object"`. -/

inductive JsVal where
  | undefinedVal
  | nullv
  | bool (b : Bool)
  | num (q : ℚ)
  | str (s : String)
  | arr (elems : List JsVal)
  | obj (fields : List (String × JsVal))

/-- JavaScript `typeof`. -/
def jsTypeof : JsVal → String
  | .undefinedVal => "undefined"
  | .nullv => "object"
  | .bool _ => "boolean"
  | .num _ => "number"
  | .str _ => "string"
  | .arr _ => "object"
  | .obj _ => "object"

/-- JavaScript truthiness (`ℚ` has no NaN, otherwise exact). -/
def jsTruthy : JsVal → Bool
  | .undefinedVal => false
  | .nullv => false
  | .bool b => b
  | .num q => !(q = 0)
  | .str s => !(s = "")
  | .arr _ => true
  | .obj _ => true

/-- Is the value JavaScript `undefined`? (`x !== undefined` tests). -/
def isUndefined : JsVal → Bool
  | .undefinedVal => true
  | _ => false

/-- JavaScript property read `v[k]`: throws a TypeError on `null` and
`undefined`, yields `undefined` for a key absent from an object or for a
(non-numeric) key on a primitive or array. -/
def jsGet (v : JsVal) (k : String) : Except String JsVal :=
  match v with
  | .undefinedVal => .error "TypeError: cannot read properties of undefined"
  | .nullv => .error "TypeError: cannot read properties of null"
  | .obj fields => .ok ((getKey fields k).getD .undefinedVal)
  | _ => .ok .undefinedVal

/-- The key/value pairs visited by a JavaScript `for...in` loop.  The
validator only ever iterates values it has checked to be truthy with
`typeof` `"object"`, i.e. genuine objects or arrays. -/
def jsEntries : JsVal → List (String × JsVal)
  | .obj fields => fields
  | .arr elems => (elems.enum.map fun e => (toString e.1, e.2))
  | _ => []

/-- Inner `for (const lessonId in courseProgress.lessons)` loop of
`validateProgressData` (progressManager.ts 170-191). -/
def validateLessonEntries : List (String × JsVal) → Except String Bool
  | [] => .ok true
  | (_, lp) :: rest =>
    if jsTypeof lp ≠ "object" then .ok false
    else do
      let completed ← jsGet lp "completed"
      if !(isUndefined completed) && jsTypeof completed ≠ "boolean" then .ok false
      else do
        let wd ← jsGet lp "watchedDuration"
        if !(isUndefined wd) && jsTypeof wd ≠ "number" then .ok false
        else do
          let lpos ← jsGet lp "lastPosition"
          if !(isUndefined lpos) && jsTypeof lpos ≠ "number" then .ok false
          else validateLessonEntries rest

/-- Outer `for (const courseId in data.courses)` loop of
`validateProgressData` (progressManager.ts 148-192). -/
def validateCourseEntries : List (String × JsVal) → Except String Bool
  | [] => .ok true
  | (_, cp) :: rest =>
    if jsTypeof cp ≠ "object" then .ok false
    else do
      let lessons ← jsGet cp "lessons"
      if jsTruthy lessons && jsTypeof lessons ≠ "object" then .ok false
      else do
        let tot ← jsGet cp "totalLessons"
        if !(isUndefined tot) && jsTypeof tot ≠ "number" then .ok false
        else do
          let comp ← jsGet cp "completedLessons"
          if !(isUndefined comp) && jsTypeof comp ≠ "number" then .ok false
          else if jsTruthy lessons then do
            let ok ← validateLessonEntries (jsEntries lessons)
            if ok then validateCourseEntries rest else .ok false
          else validateCourseEntries rest

/-- `validateProgressData` (progressManager.ts 136-195).  The TypeScript
function can itself throw (property access on a `null` course record), so
the embedding returns `Except`; `.ok b` is the function returning `b`. -/
def validateProgressData (data : JsVal) : Except String Bool :=
  if !(jsTruthy data) || jsTypeof data ≠ "object" then .ok false
  else do
    let courses ← jsGet data "courses"
    if !(jsTruthy courses) || jsTypeof courses ≠ "object" then .ok false
    else validateCourseEntries (jsEntries courses)

/-- The safe default `{ courses: {} }`. -/
def emptyProgressJson : JsVal := .obj [("courses", .obj [])]

/-- `loadProgressWithFallback` (progressManager.ts 59-76).  The behaviour of
the backing store is a parameter: `loadResult` is what `await
loadProgressData()` does (`.error` = the promise rejected / an I/O error or
JSON parse error was thrown).  Any error thrown inside the `try` block —
including one thrown by `validateProgressData` itself — is caught and the
default is returned. -/
def loadProgressWithFallback (loadResult : Except String JsVal) : JsVal :=
  match loadResult with
  | .error _ => emptyProgressJson
  | .ok data =>
    match validateProgressData data with
    | .ok true => data
    | .ok false => emptyProgressJson
    | .error _ => emptyProgressJson

/-! ## Retry-with-backoff save (progressManager.ts 18-53) -/

/-- The fixed backoff table `[1000, 2000, 4000]` (milliseconds). -/
def retryDelays : List ℕ := [1000, 2000, 4000]

/-- JavaScript `x || dflt` on an optional number (`delays[attempt] || 4000`):
a missing entry, and the falsy number 0, fall back to the default. -/
def jsOrNum (x : Option ℕ) (dflt : ℕ) : ℕ :=
  match x with
  | some d => if d = 0 then dflt else d
  | none => dflt

instance exceptDecEq {ε α : Type} [DecidableEq ε] [DecidableEq α] :
    DecidableEq (Except ε α)
  | .error e1, .error e2 =>
    if h : e1 = e2 then .isTrue (by rw [h])
    else .isFalse (fun hc => h (Except.error.inj hc))
  | .error _, .ok _ => .isFalse (fun hc => Except.noConfusion hc)
  | .ok _, .error _ => .isFalse (fun hc => Except.noConfusion hc)
  | .ok a1, .ok a2 =>
    if h : a1 = a2 then .isTrue (by rw [h])
    else .isFalse (fun hc => h (Except.ok.inj hc))

/-- What one run of `saveProgressWithRetry` did: the result (`.error msg` =
the function threw `msg`), how many times `saveProgressData` was attempted,
and the sequence of `setTimeout` sleeps performed between attempts. -/
structure RetryTrace where
  result : Except String Unit
  attempts : ℕ
  sleeps : List ℕ
  deriving Repr, DecidableEq

/-- The `for (let attempt = 0; attempt < maxRetries; attempt++)` loop of
`saveProgressWithRetry`.  `fault` is the behaviour of the backing store:
`fault i = none` means attempt `i` succeeds, `fault i = some msg` means it
throws an error with message `msg`.  `remaining` counts the loop iterations
still allowed (`maxRetries - attempt`), making the recursion structural. -/
def saveAttemptLoop (fault : ℕ → Option String) (maxRetries : ℕ) :
    ℕ → ℕ → Option String → RetryTrace
  | 0, attempt, lastError =>
    ⟨.error ("Failed to save progress after " ++ toString maxRetries ++
        " attempts: " ++ lastError.getD "Unknown error"), attempt, []⟩
  | remaining + 1, attempt, _lastError =>
    match fault attempt with
    | none => ⟨.ok (), attempt + 1, []⟩
    | some msg =>
      let rest := saveAttemptLoop fault maxRetries remaining (attempt + 1) (some msg)
      if attempt < maxRetries - 1 then
        ⟨rest.result, rest.attempts, jsOrNum (retryDelays.get? attempt) 4000 :: rest.sleeps⟩
      else
        ⟨rest.result, rest.attempts, rest.sleeps⟩

/-- The guard `!progressData || typeof progressData.courses !== 'object'`
at the top of `saveProgressWithRetry` (negated: `true` = payload accepted). -/
def progressPayloadValid (pd : JsVal) : Bool :=
  jsTruthy pd &&
    (match jsGet pd "courses" with
     | .ok c => jsTypeof c = "object"
     | .error _ => false)

/-- `saveProgressWithRetry` (progressManager.ts 18-53), as a function of the
payload, the fault pattern of the backing store, and `maxRetries`. -/
def saveProgressWithRetry (pd : JsVal) (fault : ℕ → Option String)
    (maxRetries : ℕ) : RetryTrace :=
  if progressPayloadValid pd then saveAttemptLoop fault maxRetries maxRetries 0 none
  else ⟨.error "Invalid progress data: courses object is required", 0, []⟩

theorem saveAttemptLoop_attempts_le (fault : ℕ → Option String) (maxRetries : ℕ) :
    ∀ remaining attempt lastError,
      (saveAttemptLoop fault maxRetries remaining attempt lastError).attempts ≤
        attempt + remaining := by
  intro remaining
  induction remaining with
  | zero => intro attempt lastError; simp [saveAttemptLoop]
  | succ r ih =>
    intro attempt lastError
    unfold saveAttemptLoop
    cases fault attempt with
    | none => simp
    | some msg =>
      have h := ih (attempt + 1) (some msg)
      by_cases hlt : attempt < maxRetries - 1 <;> simp [hlt] <;> omega

/-- Fault pattern of the spec scenario: the backing store fails twice and
then succeeds. -/
def twoFailFault : ℕ → Option String :=
  fun i => if i < 2 then some "save failed" else none

/-- Claim C8: for every behaviour of the backing store, `loadProgressWithFallback`
never throws (it is a total function into `JsVal`): a rejected load, a
payload failing `validateProgressData`, and a payload on which the validator
itself throws all yield the safe empty structure `{courses: \x7b\x7d}`; the loaded
data itself is returned exactly when it passes `validateProgressData`. -/
theorem loadProgressWithFallback_spec :
    (∀ e, loadProgressWithFallback (.error e) = emptyProgressJson) ∧
    (∀ d, validateProgressData d ≠ .ok true →
      loadProgressWithFallback (.ok d) = emptyProgressJson) ∧
    (∀ d, validateProgressData d = .ok true →
      loadProgressWithFallback (.ok d) = d) ∧
    (∀ r, loadProgressWithFallback r = emptyProgressJson ∨
      ∃ d, r = .ok d ∧ validateProgressData d = .ok true ∧
        loadProgressWithFallback r = d) := by
  refine ⟨fun e => rfl, fun d hd => ?_, fun d hd => ?_, fun r => ?_⟩
  · cases hv : validateProgressData d with
    | error e => simp [loadProgressWithFallback, hv]
    | ok b => cases b with
      | false => simp [loadProgressWithFallback, hv]
      | true => exact absurd hv hd
  · simp [loadProgressWithFallback, hd]
  · cases r with
    | error e => exact Or.inl rfl
    | ok d =>
      cases hv : validateProgressData d with
      | error e => exact Or.inl (by simp [loadProgressWithFallback, hv])
      | ok b => cases b with
        | false => exact Or.inl (by simp [loadProgressWithFallback, hv])
        | true => exact Or.inr ⟨d, rfl, hv, by simp [loadProgressWithFallback, hv]⟩

theorem loadProgressWithFallback_spec_witness :
    (validateProgressData (.num 5) ≠ .ok true ∧
      loadProgressWithFallback (.ok (.num 5)) = emptyProgressJson) ∧
    (validateProgressData emptyProgressJson = .ok true ∧
      loadProgressWithFallback (.ok emptyProgressJson) = emptyProgressJson) := by
  have h1 : validateProgressData (.num 5) ≠ .ok true := by decide
  have h2 : validateProgressData emptyProgressJson = .ok true := by decide
  exact ⟨⟨h1, loadProgressWithFallback_spec.2.1 (.num 5) h1⟩,
    ⟨h2, loadProgressWithFallback_spec.2.2.1 emptyProgressJson h2⟩⟩

/-- Claim C1: for every payload and fault pattern, `saveProgressWithRetry` with
the default `maxRetries = 3` makes at most 3 attempts; for an accepted
payload it returns as soon as an attempt succeeds (sleeping 1000ms after the
first failed attempt and 2000ms after the second, per the fixed table), and
when all 3 attempts fail it throws an error naming the attempt count and the
last underlying error message.  When more attempts are allowed (e.g. 5) than
the table has entries, the last entry (4000ms) is reused for the extra
sleeps. -/
theorem saveProgressWithRetry_spec (pd : JsVal) (fault : ℕ → Option String) :
    (saveProgressWithRetry pd fault 3).attempts ≤ 3 ∧
    (progressPayloadValid pd = true →
      ((fault 0 = none →
          saveProgressWithRetry pd fault 3 = ⟨.ok (), 1, []⟩) ∧
       (∀ m0, fault 0 = some m0 → fault 1 = none →
          saveProgressWithRetry pd fault 3 = ⟨.ok (), 2, [1000]⟩) ∧
       (∀ m0 m1, fault 0 = some m0 → fault 1 = some m1 → fault 2 = none →
          saveProgressWithRetry pd fault 3 = ⟨.ok (), 3, [1000, 2000]⟩) ∧
       (∀ m0 m1 m2, fault 0 = some m0 → fault 1 = some m1 → fault 2 = some m2 →
          saveProgressWithRetry pd fault 3 =
            ⟨.error ("Failed to save progress after 3 attempts: " ++ m2), 3,
              [1000, 2000]⟩) ∧
       (∀ m0 m1 m2 m3 m4, fault 0 = some m0 → fault 1 = some m1 →
          fault 2 = some m2 → fault 3 = some m3 → fault 4 = some m4 →
          (saveProgressWithRetry pd fault 5).sleeps = [1000, 2000, 4000, 4000]))) := by
  constructor
  · unfold saveProgressWithRetry
    by_cases hv : progressPayloadValid pd
    · simpa [hv] using saveAttemptLoop_attempts_le fault 3 3 0 none
    · simp [hv]
  · intro hv
    refine ⟨fun h0 => ?_, fun m0 h0 h1 => ?_, fun m0 m1 h0 h1 h2 => ?_,
      fun m0 m1 m2 h0 h1 h2 => ?_, fun m0 m1 m2 m3 m4 h0 h1 h2 h3 h4 => ?_⟩
    · simp [saveProgressWithRetry, hv, saveAttemptLoop, h0]
    · simp [saveProgressWithRetry, hv, saveAttemptLoop, h0, h1, jsOrNum, retryDelays]
    · simp [saveProgressWithRetry, hv, saveAttemptLoop, h0, h1, h2, jsOrNum, retryDelays]
    · have hmsg : ("Failed to save progress after " ++ toString (3 : ℕ) ++
          " attempts: ") = "Failed to save progress after 3 attempts: " := rfl
      simp [saveProgressWithRetry, hv, saveAttemptLoop, h0, h1, h2, jsOrNum,
        retryDelays, hmsg]
    · simp [saveProgressWithRetry, hv, saveAttemptLoop, h0, h1, h2, h3, h4,
        jsOrNum, retryDelays]

theorem saveProgressWithRetry_spec_witness :
    progressPayloadValid emptyProgressJson = true ∧
    saveProgressWithRetry emptyProgressJson twoFailFault 3 = ⟨.ok (), 3, [1000, 2000]⟩ := by
  refine ⟨rfl, ?_⟩
  exact ((saveProgressWithRetry_spec emptyProgressJson twoFailFault).2 rfl).2.2.1
    "save failed" "save failed" rfl rfl rfl

/-! ## Typed progress data (src/types/progress.ts)

Optional TypeScript fields become `Option`; an `Option` field is `some`
exactly when the JS object owns the property, so an object spread
`\x7b...a, ...b\x7d` keeps `a`'s value for a field absent from `b`.
ISO-timestamp strings are embedded as their date value in `ℚ` (the code
compares them only through `new Date(...)`). -/

structure LessonProgress where
  completed : Bool
  watchedDuration : ℚ
  lastPosition : ℚ
  lastWatched : Option ℚ
  completedAt : Option ℚ
  deriving Repr, DecidableEq

structure CourseProgress where
  lastWatched : ℚ
  currentLesson : String
  currentTime : ℚ
  lessons : List (String × LessonProgress)
  completedLessons : Option ℕ
  totalLessons : Option ℕ
  deriving Repr, DecidableEq

structure ProgressData where
  courses : List (String × CourseProgress)
  version : Option String
  lastSync : Option ℚ
  deriving Repr, DecidableEq

/-- JS object spread `\x7b...a, ...b\x7d` on two string-keyed maps: keys of `a`
first (with `b`'s value when `b` also has the key), then keys only in `b`,
in `b`'s order. -/
def spreadKeys (a b : List (String × α)) : List (String × α) :=
  (a.map fun e => (e.1, (getKey b e.1).getD e.2)) ++
    b.filter fun e => (getKey a e.1).isNone

/-- Merge of a single lesson present in both sides (progressManager.ts
241-259): spread `\x7b...existingLesson, ...incomingLesson\x7d` followed by the
explicit `watchedDuration` / `completed` / `completedAt` overrides. -/
def mergeLesson (el il : LessonProgress) : LessonProgress :=
  { completed := il.completed || el.completed
    watchedDuration := max il.watchedDuration el.watchedDuration
    lastPosition := il.lastPosition
    lastWatched :=
      match il.lastWatched with
      | some t => some t
      | none => el.lastWatched
    completedAt :=
      match il.completedAt, el.completedAt with
      | some i, some e => some (if i < e then i else e)
      | some i, none => some i
      | none, some e => some e
      | none, none => none }

/-- The merged `lessons` map of a course present in both sides: the spread
`\x7b...existingCourse.lessons, ...incomingCourse.lessons\x7d` (231-232) followed
by the fix-up loop (237-261) that replaces every lesson present in BOTH
sides by `mergeLesson`. -/
def mergeLessonMaps (el il : List (String × LessonProgress)) :
    List (String × LessonProgress) :=
  (spreadKeys el il).map fun e =>
    (e.1,
      match getKey el e.1, getKey il e.1 with
      | some l1, some l2 => mergeLesson l1 l2
      | _, _ => e.2)

/-- Merge of a course present in both sides (progressManager.ts 218-233):
spread `\x7b...existingCourse, ...incomingCourse\x7d` with the `lastWatched`
override (most recent wins; on a tie the conditional yields `existing`,
which equals `incoming`) and the per-lesson merge of `lessons`. -/
def mergeCourse (ec ic : CourseProgress) : CourseProgress :=
  { lastWatched := if ec.lastWatched < ic.lastWatched then ic.lastWatched else ec.lastWatched
    currentLesson := ic.currentLesson
    currentTime := ic.currentTime
    lessons := mergeLessonMaps ec.lessons ic.lessons
    completedLessons :=
      match ic.completedLessons with
      | some n => some n
      | none => ec.completedLessons
    totalLessons :=
      match ic.totalLessons with
      | some n => some n
      | none => ec.totalLessons }

/-- `mergeProgressData` (progressManager.ts 203-267): start from a copy of
`existing.courses` and walk `incoming.courses`, adding a course absent from
`existing` unchanged and merging one present in both.  The result literal
carries no `version`/`lastSync`. -/
def mergeProgressData (existing incoming : ProgressData) : ProgressData :=
  { courses :=
      incoming.courses.foldl
        (fun acc e =>
          match getKey existing.courses e.1 with
          | none => setKey acc e.1 e.2
          | some ec => setKey acc e.1 (mergeCourse ec e.2))
        existing.courses
    version := none
    lastSync := none }

theorem getKey_spreadKeys (a b : List (String × α)) (k : String) :
    getKey (spreadKeys a b) k =
      match getKey a k, getKey b k with
      | some _, some w => some w
      | some v, none => some v
      | none, some w => some w
      | none, none => none := by
  unfold spreadKeys
  rw [getKey_append]
  have hmap := getKey_map_entry a (fun k2 v2 => (getKey b k2).getD v2) k
  rw [hmap]
  have hfil : getKey (b.filter fun e => (getKey a e.1).isNone) k =
      if (getKey a k).isNone then getKey b k else none := by
    have := getKey_filter_key (α := α) b (fun s => (getKey a s).isNone) k
    simpa using this
  rw [hfil]
  cases ha : getKey a k with
  | none =>
    cases hb : getKey b k with
    | none => simp
    | some w => simp
  | some v =>
    cases hb : getKey b k with
    | none => simp
    | some w => simp

theorem getKey_mergeLessonMaps (el il : List (String × LessonProgress)) (k : String) :
    getKey (mergeLessonMaps el il) k =
      match getKey el k, getKey il k with
      | some e, some i => some (mergeLesson e i)
      | some e, none => some e
      | none, some i => some i
      | none, none => none := by
  unfold mergeLessonMaps
  have hmap := getKey_map_entry (spreadKeys el il)
    (fun k2 v2 =>
      match getKey el k2, getKey il k2 with
      | some l1, some l2 => mergeLesson l1 l2
      | _, _ => v2) k
  rw [hmap, getKey_spreadKeys]
  cases he : getKey el k with
  | none =>
    cases hi : getKey il k with
    | none => simp
    | some i => simp [he, hi]
  | some e =>
    cases hi : getKey il k with
    | none => simp [he, hi]
    | some i => simp [he, hi]

theorem getKey_eq_none_of_not_mem (m : List (String × α)) (k : String)
    (h : k ∉ m.map Prod.fst) : getKey m k = none := by
  induction m with
  | nil => rfl
  | cons e rest ih =>
    obtain ⟨k2, v⟩ := e
    simp only [List.map_cons, List.mem_cons] at h
    push_neg at h
    obtain ⟨h1, h2⟩ := h
    have hne : k2 ≠ k := fun heq => h1 heq.symm
    simp [getKey, hne, ih h2]

theorem getKey_foldl_setKey (g : String → α → α) (l : List (String × α)) :
    ∀ (acc : List (String × α)) (k : String), (l.map Prod.fst).Nodup →
      getKey (l.foldl (fun acc e => setKey acc e.1 (g e.1 e.2)) acc) k =
        match getKey l k with
        | some v => some (g k v)
        | none => getKey acc k := by
  induction l with
  | nil => intro acc k _; simp [getKey]
  | cons e rest ih =>
    intro acc k hnd
    obtain ⟨k2, v2⟩ := e
    simp only [List.map_cons, List.nodup_cons] at hnd
    obtain ⟨hk2, hrest⟩ := hnd
    simp only [List.foldl_cons]
    rw [ih (setKey acc k2 (g k2 v2)) k hrest]
    by_cases h : k2 = k
    · subst h
      have hnone : getKey rest k2 = none := getKey_eq_none_of_not_mem rest k2 hk2
      rw [hnone]
      simp [getKey, getKey_setKey_self]
    · rw [getKey_setKey_ne acc k2 k (g k2 v2) (Ne.symm h)]
      simp [getKey, h]

/-- Claim C2: `mergeProgressData` merges per course — a course present in only one
side is carried through unchanged, a course in both is merged by
`mergeCourse`, which takes `incoming`'s top-level fields (an optional field
absent from `incoming` keeps `existing`'s value, as the spread does), the
chronologically later `lastWatched`, and per-lesson: a lesson present in
only one side is carried through, a lesson in both has `watchedDuration` =
max of the two, `completed` = logical OR, `completedAt` = the earlier of the
two when both are present (else whichever is present), `lastPosition` from
`incoming`, `lastWatched` from `incoming` if present else `existing`. -/
theorem mergeProgressData_spec (existing incoming : ProgressData)
    (hinc : (incoming.courses.map Prod.fst).Nodup) :
    (∀ cid,
      getKey (mergeProgressData existing incoming).courses cid =
        match getKey existing.courses cid, getKey incoming.courses cid with
        | some ec, some ic => some (mergeCourse ec ic)
        | some ec, none => some ec
        | none, some ic => some ic
        | none, none => none) ∧
    (∀ ec ic,
      (mergeCourse ec ic).lastWatched =
          (if ec.lastWatched < ic.lastWatched then ic.lastWatched else ec.lastWatched) ∧
      (mergeCourse ec ic).currentLesson = ic.currentLesson ∧
      (mergeCourse ec ic).currentTime = ic.currentTime ∧
      (mergeCourse ec ic).completedLessons =
          (match ic.completedLessons with
           | some n => some n
           | none => ec.completedLessons) ∧
      (mergeCourse ec ic).totalLessons =
          (match ic.totalLessons with
           | some n => some n
           | none => ec.totalLessons)) ∧
    (∀ ec ic lid,
      getKey (mergeCourse ec ic).lessons lid =
        match getKey ec.lessons lid, getKey ic.lessons lid with
        | some el, some il => some (mergeLesson el il)
        | some el, none => some el
        | none, some il => some il
        | none, none => none) ∧
    (∀ el il,
      (mergeLesson el il).watchedDuration = max il.watchedDuration el.watchedDuration ∧
      (mergeLesson el il).completed = (il.completed || el.completed) ∧
      (mergeLesson el il).completedAt =
          (match il.completedAt, el.completedAt with
           | some i, some e => some (if i < e then i else e)
           | some i, none => some i
           | none, some e => some e
           | none, none => none) ∧
      (mergeLesson el il).lastPosition = il.lastPosition ∧
      (mergeLesson el il).lastWatched =
          (match il.lastWatched with
           | some t => some t
           | none => el.lastWatched)) := by
  refine ⟨fun cid => ?_, fun ec ic => ⟨rfl, rfl, rfl, rfl, rfl⟩,
    fun ec ic lid => getKey_mergeLessonMaps ec.lessons ic.lessons lid,
    fun el il => ⟨rfl, rfl, rfl, rfl, rfl⟩⟩
  unfold mergeProgressData
  have h := getKey_foldl_setKey
    (fun cid ic =>
      match getKey existing.courses cid with
      | none => ic
      | some ec => mergeCourse ec ic)
    incoming.courses existing.courses cid hinc
  have hstep :
      (fun (acc : List (String × CourseProgress)) (e : String × CourseProgress) =>
        match getKey existing.courses e.1 with
        | none => setKey acc e.1 e.2
        | some ec => setKey acc e.1 (mergeCourse ec e.2)) =
      (fun acc e => setKey acc e.1
        ((fun cid ic =>
          match getKey existing.courses cid with
          | none => ic
          | some ec => mergeCourse ec ic) e.1 e.2)) := by
    funext acc e
    cases hg : getKey existing.courses e.1 with
    | none => simp [hg]
    | some ec => simp [hg]
  rw [hstep, h]
  cases he : getKey existing.courses cid with
  | none =>
    cases hi : getKey incoming.courses cid with
    | none => simp
    | some ic => simp [he]
  | some ec =>
    cases hi : getKey incoming.courses cid with
    | none => simp
    | some ic => simp [he]

/-- Concrete data for the C2 witness: one course, one shared lesson. -/
def witLessonE : LessonProgress :=
  ⟨true, 10, 3, some 50, some 40⟩

def witLessonI : LessonProgress :=
  ⟨false, 7, 9, none, some 60⟩

def witExisting : ProgressData :=
  ⟨[("c", ⟨100, "l1", 3, [("l1", witLessonE)], some 1, some 2⟩)], some "1.0", none⟩

def witIncoming : ProgressData :=
  ⟨[("c", ⟨120, "l1", 9, [("l1", witLessonI)], none, some 2⟩)], some "1.0", none⟩

theorem mergeProgressData_spec_witness :
    (witIncoming.courses.map Prod.fst).Nodup ∧
    getKey (mergeProgressData witExisting witIncoming).courses "c" =
      some (mergeCourse ⟨100, "l1", 3, [("l1", witLessonE)], some 1, some 2⟩
        ⟨120, "l1", 9, [("l1", witLessonI)], none, some 2⟩) := by
  refine ⟨by decide, ?_⟩
  have h := (mergeProgressData_spec witExisting witIncoming (by decide)).1 "c"
  rw [h]
  rfl

/-! ## Progress slice (src/store/slices/progressSlice.ts)

Reducers are embedded as pure transition functions on `ProgressState`.
Every `new Date().toISOString()` stamp is passed in as a parameter `now`
(all stamps taken inside one reducer call are the same instant). -/

structure ProgressState where
  courses : List (String × CourseProgress)
  isLoading : Bool
  isSaving : Bool
  error : Option String
  isDirty : Bool
  version : Option String
  lastSync : Option ℚ
  deriving Repr, DecidableEq

/-- `initialState` (progressSlice.ts 14-21). -/
def initialProgressState : ProgressState :=
  { courses := []
    isLoading := false
    isSaving := false
    error := none
    isDirty := false
    version := some "1.0"
    lastSync := none }

/-- The course record lazily created by `updateLessonProgress` (137-144). -/
def freshCourseProgress (lessonId : String) (now : ℚ) : CourseProgress :=
  { lastWatched := now
    currentLesson := lessonId
    currentTime := 0
    lessons := []
    completedLessons := none
    totalLessons := none }

/-- The lesson record lazily created by `updateLessonProgress` (147-153). -/
def freshLessonProgress : LessonProgress :=
  { completed := false
    watchedDuration := 0
    lastPosition := 0
    lastWatched := none
    completedAt := none }

/-- `Partial<LessonProgress>` (src/types/progress.ts 54): a field is `some`
when the update object owns the property. -/
structure LessonProgressUpdate where
  completed : Option Bool
  watchedDuration : Option ℚ
  lastPosition : Option ℚ
  lastWatched : Option ℚ
  completedAt : Option ℚ
  deriving Repr, DecidableEq

/-- The empty update object `\x7b\x7d`. -/
def emptyLessonUpdate : LessonProgressUpdate :=
  ⟨none, none, none, none, none⟩

/-- `updateLessonProgress` reducer (progressSlice.ts 130-165). -/
def updateLessonProgress (s : ProgressState) (courseId lessonId : String)
    (progress : LessonProgressUpdate) (now : ℚ) : ProgressState :=
  let cp0 :=
    match getKey s.courses courseId with
    | some cp => cp
    | none => freshCourseProgress lessonId now
  let lp0 :=
    match getKey cp0.lessons lessonId with
    | some lp => lp
    | none => freshLessonProgress
  let lp1 : LessonProgress :=
    { completed := progress.completed.getD lp0.completed
      watchedDuration := progress.watchedDuration.getD lp0.watchedDuration
      lastPosition := progress.lastPosition.getD lp0.lastPosition
      lastWatched := some now
      completedAt :=
        match progress.completedAt with
        | some t => some t
        | none => lp0.completedAt }
  let cp1 := { cp0 with lessons := setKey cp0.lessons lessonId lp1, lastWatched := now }
  { s with courses := setKey s.courses courseId cp1, isDirty := true }

/-- `setCurrentTime` reducer (progressSlice.ts 167-197). -/
def setCurrentTime (s : ProgressState) (courseId lessonId : String)
    (currentTime : ℚ) (now : ℚ) : ProgressState :=
  let cp0 :=
    match getKey s.courses courseId with
    | some cp => cp
    | none =>
      { lastWatched := now
        currentLesson := lessonId
        currentTime := currentTime
        lessons := []
        completedLessons := none
        totalLessons := none }
  let lessons1 :=
    match getKey cp0.lessons lessonId with
    | some _ => cp0.lessons
    | none =>
      setKey cp0.lessons lessonId
        { completed := false
          watchedDuration := 0
          lastPosition := currentTime
          lastWatched := none
          completedAt := none }
  let lp := (getKey lessons1 lessonId).getD freshLessonProgress
  let cp1 :=
    { cp0 with
        currentTime := currentTime
        currentLesson := lessonId
        lessons := setKey lessons1 lessonId { lp with lastPosition := currentTime } }
  { s with courses := setKey s.courses courseId cp1, isDirty := true }

/-- `markLessonComplete` reducer (progressSlice.ts 199-217): guarded by the
optional chain `state.courses[courseId]?.lessons[lessonId]`. -/
def markLessonComplete (s : ProgressState) (courseId lessonId : String)
    (now : ℚ) : ProgressState :=
  match getKey s.courses courseId with
  | none => s
  | some cp =>
    match getKey cp.lessons lessonId with
    | none => s
    | some lp =>
      let lessons1 := setKey cp.lessons lessonId
        { lp with completed := true, completedAt := some now }
      let completedCount := (lessons1.filter fun e => e.2.completed).length
      let cp1 := { cp with lessons := lessons1, completedLessons := some completedCount }
      { s with courses := setKey s.courses courseId cp1, isDirty := true }

/-- `markLessonIncomplete` reducer (progressSlice.ts 219-237). -/
def markLessonIncomplete (s : ProgressState) (courseId lessonId : String) :
    ProgressState :=
  match getKey s.courses courseId with
  | none => s
  | some cp =>
    match getKey cp.lessons lessonId with
    | none => s
    | some lp =>
      let lessons1 := setKey cp.lessons lessonId
        { lp with completed := false, completedAt := none }
      let completedCount := (lessons1.filter fun e => e.2.completed).length
      let cp1 := { cp with lessons := lessons1, completedLessons := some completedCount }
      { s with courses := setKey s.courses courseId cp1, isDirty := true }

/-- `initializeCourseProgress` reducer (progressSlice.ts 239-256): note it
does NOT touch `isDirty` and creates the record without `completedLessons`. -/
def initializeCourseProgress (s : ProgressState) (courseId : String)
    (totalLessons : ℕ) (now : ℚ) : ProgressState :=
  match getKey s.courses courseId with
  | none =>
    { s with
        courses := setKey s.courses courseId
          { lastWatched := now
            currentLesson := ""
            currentTime := 0
            lessons := []
            completedLessons := none
            totalLessons := some totalLessons } }
  | some cp =>
    { s with
        courses := setKey s.courses courseId { cp with totalLessons := some totalLessons } }

/-- `clearCourseProgress` reducer (progressSlice.ts 258-261). -/
def clearCourseProgress (s : ProgressState) (courseId : String) : ProgressState :=
  { s with courses := eraseKey s.courses courseId, isDirty := true }

/-- `initializeCourseProgressFromCourse` reducer (progressSlice.ts 271-297).
The payload's `sections` are embedded as their lists of lesson ids.  Note it
does NOT touch `isDirty`. -/
def initializeCourseProgressFromCourse (s : ProgressState) (courseId : String)
    (sections : List (List String)) (now : ℚ) : ProgressState :=
  let totalLessons := sections.foldl (fun total sec => total + sec.length) 0
  match getKey s.courses courseId with
  | none =>
    { s with
        courses := setKey s.courses courseId
          { lastWatched := now
            currentLesson := ""
            currentTime := 0
            lessons := []
            completedLessons := some 0
            totalLessons := some totalLessons } }
  | some cp =>
    { s with
        courses := setKey s.courses courseId { cp with totalLessons := some totalLessons } }

/-- `saveProgress.pending` extra reducer (progressSlice.ts 324-327). -/
def saveProgressPending (s : ProgressState) : ProgressState :=
  { s with isSaving := true, error := none }

/-- `saveProgress.fulfilled` extra reducer (progressSlice.ts 328-332). -/
def saveProgressFulfilled (s : ProgressState) (now : ℚ) : ProgressState :=
  { s with isSaving := false, isDirty := false, lastSync := some now }

/-- `saveProgress.rejected` extra reducer (progressSlice.ts 333-337):
`isDirty` is deliberately left untouched. -/
def saveProgressRejected (s : ProgressState) (msg : String) : ProgressState :=
  { s with isSaving := false, error := some msg }

/-- `selectCourseCompletionPercentage` selector (progressSlice.ts 399-409). -/
def selectCourseCompletionPercentage (courses : List (String × CourseProgress))
    (courseId : String) : ℚ :=
  match getKey courses courseId with
  | none => 0
  | some cp =>
    match cp.totalLessons with
    | none => 0
    | some tl =>
      if tl = 0 then 0
      else ((cp.completedLessons.getD 0 : ℚ) / (tl : ℚ)) * 100

/-- A small state with one course `"c"` holding one lesson record `"l1"`
(used to instantiate theorems with hypotheses). -/
def witState : ProgressState :=
  { initialProgressState with
      courses := [("c", ⟨0, "l1", 0, [("l1", freshLessonProgress)], none, some 1⟩)] }

/-- Claim C7: when no lesson record exists for `(courseId, lessonId)` —
because the course record is missing or because the lesson record is —
`markLessonComplete` returns the state unchanged (no record created, no
error); when the record exists it sets `completed = true`, stamps
`completedAt`, recomputes the cached `completedLessons` by counting the
complete lessons of that course, and marks the state dirty. -/
theorem markLessonComplete_spec (s : ProgressState) (courseId lessonId : String)
    (now : ℚ) :
    (getKey s.courses courseId = none →
      markLessonComplete s courseId lessonId now = s) ∧
    (∀ cp, getKey s.courses courseId = some cp → getKey cp.lessons lessonId = none →
      markLessonComplete s courseId lessonId now = s) ∧
    (∀ cp lp, getKey s.courses courseId = some cp →
      getKey cp.lessons lessonId = some lp →
      ∃ cp', getKey (markLessonComplete s courseId lessonId now).courses courseId
          = some cp' ∧
        (∃ lp', getKey cp'.lessons lessonId = some lp' ∧
          lp'.completed = true ∧ lp'.completedAt = some now ∧
          lp'.watchedDuration = lp.watchedDuration ∧
          lp'.lastPosition = lp.lastPosition) ∧
        cp'.completedLessons = some ((cp'.lessons.filter fun e => e.2.completed).length) ∧
        (markLessonComplete s courseId lessonId now).isDirty = true) := by
  refine ⟨fun hc => ?_, fun cp hc hl => ?_, fun cp lp hc hl => ?_⟩
  · simp [markLessonComplete, hc]
  · simp [markLessonComplete, hc, hl]
  · simp only [markLessonComplete, hc, hl]
    refine ⟨_, getKey_setKey_self _ _ _,
      ⟨_, getKey_setKey_self _ _ _, ?_, ?_, ?_, ?_⟩, ?_, ?_⟩ <;>
      first | rfl | trivial

theorem markLessonComplete_spec_witness :
    markLessonComplete initialProgressState "c" "l1" 5 = initialProgressState ∧
    (markLessonComplete witState "c" "l1" 5).isDirty = true := by
  constructor
  · exact (markLessonComplete_spec initialProgressState "c" "l1" 5).1 rfl
  · obtain ⟨cp', hcp, hlp, hcount, hdirty⟩ :=
      (markLessonComplete_spec witState "c" "l1" 5).2.2
        ⟨0, "l1", 0, [("l1", freshLessonProgress)], none, some 1⟩
        freshLessonProgress rfl rfl
    exact hdirty

/-- Claim C10: on a state whose lesson record for `(courseId, lessonId)` exists,
`setCurrentTime` changes only the course's `currentTime` and
`currentLesson`, that lesson's `lastPosition`, and the `isDirty` flag; the
lesson's `completed`/`completedAt`/`watchedDuration`/`lastWatched`, the
course's `lastWatched` and cached counts, every other lesson, every other
course and all other state fields are unchanged. -/
theorem setCurrentTime_frame (s : ProgressState) (courseId lessonId : String)
    (t now : ℚ) (cp : CourseProgress) (lp : LessonProgress)
    (hc : getKey s.courses courseId = some cp)
    (hl : getKey cp.lessons lessonId = some lp) :
    (∃ cp', getKey (setCurrentTime s courseId lessonId t now).courses courseId
        = some cp' ∧
      cp'.currentTime = t ∧ cp'.currentLesson = lessonId ∧
      cp'.lastWatched = cp.lastWatched ∧
      cp'.completedLessons = cp.completedLessons ∧
      cp'.totalLessons = cp.totalLessons ∧
      (∃ lp', getKey cp'.lessons lessonId = some lp' ∧
        lp'.lastPosition = t ∧ lp'.completed = lp.completed ∧
        lp'.completedAt = lp.completedAt ∧
        lp'.watchedDuration = lp.watchedDuration ∧
        lp'.lastWatched = lp.lastWatched) ∧
      (∀ lid, lid ≠ lessonId → getKey cp'.lessons lid = getKey cp.lessons lid)) ∧
    (∀ cid, cid ≠ courseId →
      getKey (setCurrentTime s courseId lessonId t now).courses cid
        = getKey s.courses cid) ∧
    (setCurrentTime s courseId lessonId t now).isDirty = true ∧
    (setCurrentTime s courseId lessonId t now).isLoading = s.isLoading ∧
    (setCurrentTime s courseId lessonId t now).isSaving = s.isSaving ∧
    (setCurrentTime s courseId lessonId t now).error = s.error ∧
    (setCurrentTime s courseId lessonId t now).version = s.version ∧
    (setCurrentTime s courseId lessonId t now).lastSync = s.lastSync := by
  simp only [setCurrentTime, hc, hl, Option.getD_some]
  refine ⟨⟨_, getKey_setKey_self _ _ _, ?_, ?_, ?_, ?_, ?_,
      ⟨_, getKey_setKey_self _ _ _, ?_, ?_, ?_, ?_, ?_⟩,
      fun lid hlid => getKey_setKey_ne _ _ _ _ hlid⟩,
    fun cid hcid => getKey_setKey_ne _ _ _ _ hcid, ?_, ?_, ?_, ?_, ?_, ?_⟩ <;>
    first | rfl | trivial

theorem setCurrentTime_frame_witness :
    (setCurrentTime witState "c" "l1" 42 7).isDirty = true ∧
    (setCurrentTime witState "c" "l1" 42 7).lastSync = witState.lastSync := by
  obtain ⟨hcourse, hother, hdirty, hload, hsave, herr, hver, hsync⟩ :=
    setCurrentTime_frame witState "c" "l1" 42 7
      ⟨0, "l1", 0, [("l1", freshLessonProgress)], none, some 1⟩
      freshLessonProgress rfl rfl
  exact ⟨hdirty, hsync⟩

/-- A state reachable through the defined transitions in which two lessons
of course `"c"` are complete while the cached `totalLessons` is 1: seed the
course with `totalLessons = 1`, create two lesson records, complete both. -/
def overCountedState : ProgressState :=
  markLessonComplete
    (markLessonComplete
      (updateLessonProgress
        (updateLessonProgress
          (initializeCourseProgress initialProgressState "c" 1 0)
          "c" "l1" emptyLessonUpdate 1)
        "c" "l2" emptyLessonUpdate 2)
      "c" "l1" 3)
    "c" "l2" 4

/-- Claim C6 counterexample: on the reachable state `overCountedState` the
completion percentage is 200, outside `[0, 100]`, refuting the claim's upper
bound (the formula itself is as claimed: 2 completed / 1 total * 100). -/
theorem selectCourseCompletionPercentage_cex :
    selectCourseCompletionPercentage overCountedState.courses "c" = 200 ∧
    ¬ selectCourseCompletionPercentage overCountedState.courses "c" ≤ 100 := by
  have hc : getKey overCountedState.courses "c" =
      some ⟨2, "", 0,
        [("l1", ⟨true, 0, 0, some 1, some 3⟩), ("l2", ⟨true, 0, 0, some 2, some 4⟩)],
        some 2, some 1⟩ := rfl
  have h : selectCourseCompletionPercentage overCountedState.courses "c" = 200 := by
    simp only [selectCourseCompletionPercentage, hc]
    norm_num
  exact ⟨h, by rw [h]; norm_num⟩

/-- Claim C6 amended: the completion percentage is
`completedLessons / totalLessons * 100` when `totalLessons` is truthy and
exactly 0 when `totalLessons` is 0 or absent or the course has no record
(never dividing by zero), and it is always ≥ 0 — but it is NOT bounded by
100 on all reachable states (see the counterexample: the cached
`completedLessons` can exceed the cached `totalLessons`). -/
theorem selectCourseCompletionPercentage_spec
    (courses : List (String × CourseProgress)) (courseId : String) :
    0 ≤ selectCourseCompletionPercentage courses courseId ∧
    (getKey courses courseId = none →
      selectCourseCompletionPercentage courses courseId = 0) ∧
    (∀ cp, getKey courses courseId = some cp → cp.totalLessons = none →
      selectCourseCompletionPercentage courses courseId = 0) ∧
    (∀ cp, getKey courses courseId = some cp → cp.totalLessons = some 0 →
      selectCourseCompletionPercentage courses courseId = 0) ∧
    (∀ cp tl, getKey courses courseId = some cp → cp.totalLessons = some tl →
      tl ≠ 0 →
      selectCourseCompletionPercentage courses courseId =
        ((cp.completedLessons.getD 0 : ℚ) / (tl : ℚ)) * 100) := by
  refine ⟨?_, fun hc => ?_, fun cp hc ht => ?_, fun cp hc ht => ?_,
    fun cp tl hc ht htl => ?_⟩
  · unfold selectCourseCompletionPercentage
    cases hc : getKey courses courseId with
    | none => simp
    | some cp =>
      cases ht : cp.totalLessons with
      | none => simp [ht]
      | some tl =>
        simp only [ht]
        by_cases h0 : tl = 0
        · simp [h0]
        · simp only [h0, if_false]
          exact mul_nonneg (div_nonneg (Nat.cast_nonneg _) (Nat.cast_nonneg _))
            (by norm_num)
  · simp [selectCourseCompletionPercentage, hc]
  · simp [selectCourseCompletionPercentage, hc, ht]
  · simp [selectCourseCompletionPercentage, hc, ht]
  · simp [selectCourseCompletionPercentage, hc, ht, htl]

theorem selectCourseCompletionPercentage_spec_witness :
    selectCourseCompletionPercentage witState.courses "c" = 0 := by
  have h := (selectCourseCompletionPercentage_spec witState.courses "c").2.2.2.2
    ⟨0, "l1", 0, [("l1", freshLessonProgress)], none, some 1⟩ 1 rfl rfl
    (by decide)
  rw [h]
  norm_num

/-- Claim C5 counterexample: `initializeCourseProgressFromCourse` — one of the
transitions the claim quantifies over — changes the `courses` state (it
creates the course record) yet leaves `isDirty = false`. -/
theorem initializeCourseProgressFromCourse_cex :
    (initializeCourseProgressFromCourse initialProgressState "c" [["l1"]] 0).courses
      ≠ initialProgressState.courses ∧
    (initializeCourseProgressFromCourse initialProgressState "c" [["l1"]] 0).isDirty
      = false := by
  decide

/-- Claim C5 amended: every listed mutating transition EXCEPT
`initializeCourseProgressFromCourse` leaves `isDirty = true`
(`markLessonComplete`/`markLessonIncomplete` on an existing record);
`initializeCourseProgressFromCourse` leaves `isDirty` unchanged even when it
changes the courses state; a successful save sets `isDirty = false`, and a
failed save leaves `isDirty` unchanged (hence still `true`). -/
theorem progressDirty_spec :
    (∀ s cid lid p now, (updateLessonProgress s cid lid p now).isDirty = true) ∧
    (∀ s cid lid t now, (setCurrentTime s cid lid t now).isDirty = true) ∧
    (∀ s cid lid now cp lp, getKey s.courses cid = some cp →
      getKey cp.lessons lid = some lp →
      (markLessonComplete s cid lid now).isDirty = true) ∧
    (∀ s cid lid cp lp, getKey s.courses cid = some cp →
      getKey cp.lessons lid = some lp →
      (markLessonIncomplete s cid lid).isDirty = true) ∧
    (∀ s cid, (clearCourseProgress s cid).isDirty = true) ∧
    (∀ s cid secs now,
      (initializeCourseProgressFromCourse s cid secs now).isDirty = s.isDirty) ∧
    (∀ s now, (saveProgressFulfilled s now).isDirty = false) ∧
    (∀ s msg, (saveProgressRejected s msg).isDirty = s.isDirty) := by
  refine ⟨fun s cid lid p now => rfl, fun s cid lid t now => rfl,
    fun s cid lid now cp lp hc hl => ?_, fun s cid lid cp lp hc hl => ?_,
    fun s cid => rfl, fun s cid secs now => ?_, fun s now => rfl,
    fun s msg => rfl⟩
  · simp [markLessonComplete, hc, hl]
  · simp [markLessonIncomplete, hc, hl]
  · unfold initializeCourseProgressFromCourse
    cases getKey s.courses cid with
    | none => rfl
    | some cp => rfl

theorem progressDirty_spec_witness :
    (markLessonComplete witState "c" "l1" 5).isDirty = true ∧
    (markLessonIncomplete witState "c" "l1").isDirty = true := by
  constructor
  · exact progressDirty_spec.2.2.1 witState "c" "l1" 5
      ⟨0, "l1", 0, [("l1", freshLessonProgress)], none, some 1⟩
      freshLessonProgress rfl rfl
  · exact progressDirty_spec.2.2.2.1 witState "c" "l1"
      ⟨0, "l1", 0, [("l1", freshLessonProgress)], none, some 1⟩
      freshLessonProgress rfl rfl

/-! ## Courses slice (src/renderer/store/slices/coursesSlice.ts)

Only the fields the embedded reducers read or write are modelled on
`Course`; the other manifest fields (title, sections, ...) are never
inspected by `loadCoursesFromFolders`, `removeCourseFolder` or
`removeCourse` and `enrichCourseMetadata` (courseLoader.ts 142-159) only
fills derived metadata (`duration`, `totalLessons`, `createdAt`), leaving
`id` and `folderPath` untouched, so it is the identity on the modelled
record. -/

structure Course where
  id : String
  folderPath : String
  deriving Repr, DecidableEq

structure CoursesFilters where
  instructor : Option String
  completionStatus : String
  deriving Repr, DecidableEq

structure CoursesState where
  courses : List Course
  selectedCourseId : Option String
  courseFolders : List String
  searchQuery : String
  filters : CoursesFilters
  isLoading : Bool
  error : Option String
  lastUpdated : Option ℚ
  deriving Repr, DecidableEq

/-- The `for (const folderPath of folderPaths)` loop of the
`loadCoursesFromFolders` thunk (coursesSlice.ts 59-82).  `load` is the
behaviour of the external collaborator `loadCourseData` on each folder
(`.error` = it threw); a folder that throws is skipped, a folder that loads
contributes its course with `folderPath` attached, in input order.  The
outer `try` never observes an error (every per-folder error is caught by
the inner `catch`), so the thunk always fulfills with this list. -/
def loadCoursesFromFolders (load : String → Except String Course) :
    List String → List Course
  | [] => []
  | p :: rest =>
    match load p with
    | .ok c => { c with folderPath := p } :: loadCoursesFromFolders load rest
    | .error _ => loadCoursesFromFolders load rest

/-- `loadCoursesFromFolders.fulfilled` reducer (coursesSlice.ts 170-174):
the payload replaces `state.courses` wholesale. -/
def loadCoursesFromFoldersFulfilled (s : CoursesState) (payload : List Course)
    (now : ℚ) : CoursesState :=
  { s with isLoading := false, courses := payload, lastUpdated := some now }

/-- `removeCourseFolder` reducer (coursesSlice.ts 99-103). -/
def removeCourseFolder (s : CoursesState) (path : String) : CoursesState :=
  { s with
      courseFolders := s.courseFolders.filter fun p => p ≠ path
      courses := s.courses.filter fun c => c.folderPath ≠ path }

/-- `removeCourse` reducer (coursesSlice.ts 105-111). -/
def removeCourse (s : CoursesState) (courseId : String) : CoursesState :=
  { s with
      courses := s.courses.filter fun c => c.id ≠ courseId
      selectedCourseId :=
        if s.selectedCourseId = some courseId then none else s.selectedCourseId }

/-- A backing store for the C3 counterexample: folders `"a"` and `"b"` both
load successfully but yield the same course id `"x"`. -/
def collidingLoad : String → Except String Course :=
  fun p =>
    if p = "a" then .ok ⟨"x", ""⟩
    else if p = "b" then .ok ⟨"x", ""⟩
    else .error "invalid course data"

/-- Claim C3 counterexample: with two folders whose courses share id `"x"`, the
batch loader returns BOTH courses — the resulting list has duplicate ids,
so it is not deduplicated by course id as the claim states (the last-wins
dedup exists only in the single-course `loadCourseFromFolder.fulfilled`
reducer, coursesSlice.ts 148-158). -/
theorem loadCoursesFromFolders_cex :
    (loadCoursesFromFolders collidingLoad ["a", "b"]).map Course.id = ["x", "x"] ∧
    ¬ ((loadCoursesFromFolders collidingLoad ["a", "b"]).map Course.id).Nodup := by
  decide

/-- Claim C3 amended: the batch loader raises no error to the caller and returns
exactly the successfully loaded courses in input order, each with its
`folderPath` attached — but WITHOUT deduplication by id: courses with
colliding ids are all retained, and the fulfilled reducer installs the
payload wholesale. -/
theorem loadCoursesFromFolders_spec (load : String → Except String Course)
    (paths : List String) :
    loadCoursesFromFolders load paths =
      paths.filterMap (fun p =>
        match load p with
        | .ok c => some { c with folderPath := p }
        | .error _ => none) ∧
    (∀ s payload now,
      (loadCoursesFromFoldersFulfilled s payload now).courses = payload ∧
      (loadCoursesFromFoldersFulfilled s payload now).isLoading = false ∧
      (loadCoursesFromFoldersFulfilled s payload now).error = s.error) := by
  refine ⟨?_, fun s payload now => ⟨rfl, rfl, rfl⟩⟩
  induction paths with
  | nil => rfl
  | cons p rest ih =>
    cases hl : load p with
    | ok c => simp [loadCoursesFromFolders, hl, ih]
    | error e => simp [loadCoursesFromFolders, hl, ih]

/-- A courses state for the C4 counterexample: the selected course `"x"`
lives in folder `"f1"`. -/
def selectedInFolderState : CoursesState :=
  { courses := [⟨"x", "f1"⟩, ⟨"y", "f2"⟩]
    selectedCourseId := some "x"
    courseFolders := ["f1", "f2"]
    searchQuery := ""
    filters := ⟨none, "all"⟩
    isLoading := false
    error := none
    lastUpdated := none }

/-- Claim C4 counterexample: removing folder `"f1"`, which contains the selected
course `"x"`, removes the course but leaves `selectedCourseId = some "x"` —
the claim says the selection is cleared. -/
theorem removeCourseFolder_cex :
    (selectedInFolderState.courses.filter
      fun c => c.folderPath = "f1").map Course.id = ["x"] ∧
    selectedInFolderState.selectedCourseId = some "x" ∧
    (removeCourseFolder selectedInFolderState "f1").courses = [⟨"y", "f2"⟩] ∧
    (removeCourseFolder selectedInFolderState "f1").selectedCourseId = some "x" := by
  decide

/-- Claim C4 amended: `removeCourseFolder(path)` removes `path` from the watched
folders and exactly those courses whose `folderPath` equals `path`, leaving
every other course, `selectedCourseId` (even when the selected course was
just removed) and all other fields untouched; clearing the selection
happens only in the separate `removeCourse(id)` reducer, when its id
matches. -/
theorem removeCourseFolder_spec (s : CoursesState) (path : String) :
    (removeCourseFolder s path).courseFolders =
        (s.courseFolders.filter fun p => p ≠ path) ∧
    (∀ c, c ∈ (removeCourseFolder s path).courses ↔
        (c ∈ s.courses ∧ c.folderPath ≠ path)) ∧
    (removeCourseFolder s path).selectedCourseId = s.selectedCourseId ∧
    (removeCourseFolder s path).searchQuery = s.searchQuery ∧
    (removeCourseFolder s path).filters = s.filters ∧
    (removeCourseFolder s path).isLoading = s.isLoading ∧
    (removeCourseFolder s path).error = s.error ∧
    (removeCourseFolder s path).lastUpdated = s.lastUpdated ∧
    (∀ cid, (removeCourse s cid).selectedCourseId =
        (if s.selectedCourseId = some cid then none else s.selectedCourseId)) ∧
    (∀ cid c, c ∈ (removeCourse s cid).courses ↔ (c ∈ s.courses ∧ c.id ≠ cid)) := by
  refine ⟨rfl, fun c => ?_, rfl, rfl, rfl, rfl, rfl, rfl, fun cid => rfl,
    fun cid c => ?_⟩
  · simp [removeCourseFolder]
  · simp [removeCourse]
/-! ## Debounced save scheduler (progressManager.ts 83-129)

The closure of `createDebouncedSave` holds `timeoutId`, `pendingData` and
the promise handlers `pendingResolve`/`pendingReject` (always set and
cleared together, so they are modelled as one `pendingPromise`).  The timer
callback is `async`: when a timer fires, the callback synchronously reads
`pendingData` and invokes `saveProgressWithRetry`, then SUSPENDS at the
`await`; the promise settlement and the `finally` block that clears the
closure run only when that save completes, and other events — further
calls, further timer firings — can interleave in between.  The embedding
therefore keeps an explicit in-flight count and drives the closure with
three events: a new call, a scheduled timer firing, and an awaited save
completing.

Conventions of the embedding: each call is identified by its snapshot id,
which also names the promise that call returned (every call creates exactly
one promise carrying one snapshot); all timers share the one fixed delay,
so scheduled timers fire in scheduling order (`liveTimers` is that FIFO
queue, from which `clearTimeout` removes its argument); `saveDone`
completes the oldest in-flight save; a `timerFire` with no live timer and a
`saveDone` with no in-flight save are no-ops (such events do not occur). -/

inductive DebEvent where
  | call (snap : ℕ)
  | timerFire
  | saveDone (ok : Bool)
  deriving Repr, DecidableEq

inductive DebEffect where
  | rejectedSuperseded (snap : ℕ)
  | wrote (snap : ℕ)
  | resolved (snap : ℕ)
  | rejectedError (snap : ℕ)
  deriving Repr, DecidableEq

/-- The closure variables of `createDebouncedSave` (progressManager.ts
86-89) plus the event-loop context: the FIFO queue of scheduled timers, how
many timer callbacks are suspended at the `await` (progressManager.ts 111),
and a counter for fresh timer ids. -/
structure DebState where
  timeoutId : Option ℕ
  pendingData : Option ℕ
  pendingPromise : Option ℕ
  liveTimers : List ℕ
  inFlightCount : ℕ
  nextTimerId : ℕ
  deriving Repr, DecidableEq

def initialDebState : DebState :=
  { timeoutId := none
    pendingData := none
    pendingPromise := none
    liveTimers := []
    inFlightCount := 0
    nextTimerId := 0 }

/-- One event of the debounced save closure (progressManager.ts 91-127).

`call d` (91-107): when `timeoutId !== null` it clears THAT timer and
rejects the promise the handlers currently point to — whether its timer is
still pending or its save is already in flight — then stores the new
snapshot and handlers and schedules a fresh timer.

`timerFire` (108-126, up to the `await`): the oldest scheduled timer fires;
its callback reads the CURRENT `pendingData`; when present it invokes
`saveProgressWithRetry` (the `wrote` effect) and suspends, and when null
(`if (pendingData)`) it skips the save and runs the `finally` block
synchronously, clearing the closure.

`saveDone ok` (112-125, after the `await`): the awaited save completes; the
callback settles whatever promise the handlers point to NOW (113, 118) with
the save outcome, then the `finally` block (120-125) clears `timeoutId`,
`pendingData` and the handlers. -/
def debounceStep (s : DebState) (ev : DebEvent) : DebState × List DebEffect :=
  match ev with
  | .call d =>
    let cancelEffects :=
      match s.timeoutId, s.pendingPromise with
      | some _, some p => [DebEffect.rejectedSuperseded p]
      | _, _ => []
    let timersAfterClear :=
      match s.timeoutId with
      | some t => s.liveTimers.filter fun t2 => t2 ≠ t
      | none => s.liveTimers
    ({ timeoutId := some s.nextTimerId
       pendingData := some d
       pendingPromise := some d
       liveTimers := timersAfterClear ++ [s.nextTimerId]
       inFlightCount := s.inFlightCount
       nextTimerId := s.nextTimerId + 1 }, cancelEffects)
  | .timerFire =>
    match s.liveTimers with
    | [] => (s, [])
    | _ :: rest =>
      match s.pendingData with
      | some d =>
        ({ s with liveTimers := rest, inFlightCount := s.inFlightCount + 1 },
          [DebEffect.wrote d])
      | none =>
        ({ s with
            liveTimers := rest
            timeoutId := none
            pendingData := none
            pendingPromise := none }, [])
  | .saveDone ok =>
    match s.inFlightCount with
    | 0 => (s, [])
    | n + 1 =>
      let settleEffects :=
        match s.pendingPromise with
        | some p =>
          if ok then [DebEffect.resolved p] else [DebEffect.rejectedError p]
        | none => []
      ({ s with
          inFlightCount := n
          timeoutId := none
          pendingData := none
          pendingPromise := none }, settleEffects)

/-- Run the closure over a sequence of events, collecting effects. -/
def debounceRun (s : DebState) : List DebEvent → DebState × List DebEffect
  | [] => (s, [])
  | ev :: rest =>
    let step := debounceStep s ev
    let next := debounceRun step.1 rest
    (next.1, step.2 ++ next.2)

/-- The snapshots handed to the underlying retrying save, in order. -/
def writesOf (effs : List DebEffect) : List ℕ :=
  effs.filterMap fun e =>
    match e with
    | .wrote d => some d
    | _ => none

/-- The snapshots whose promise was rejected as superseded, in order. -/
def supersededOf (effs : List DebEffect) : List ℕ :=
  effs.filterMap fun e =>
    match e with
    | .rejectedSuperseded d => some d
    | _ => none

/-- The failing schedule: call with snapshot 1; its timer fires and the
save of snapshot 1 is awaited; a second call (snapshot 2) arrives during
that in-flight save; the save completes successfully; the second call's
timer fires. -/
def lostWriteEvents : List DebEvent :=
  [.call 1, .timerFire, .call 2, .saveDone true, .timerFire]

/-- Claim C9 (code bug): evaluating `createDebouncedSave` on a call that
arrives while the awaited save is in flight.  The full effect trace is
`[wrote 1, rejectedSuperseded 1, resolved 2]`: call 1's promise is rejected
as superseded even though its write proceeds and succeeds, call 2's promise
is resolved by the completion of a save that wrote snapshot 1, and — the
`finally` block having cleared `pendingData` — call 2's own timer then
fires without invoking any save.  Snapshot 2, the most recent call's data,
is never written (the write list is `[1]`), and the final state holds no
pending data and no live timer, so it never will be: the claim's
once-per-burst / most-recent-snapshot property, which the spec states as
the intent, is violated by the code. -/
theorem createDebouncedSave_lost_write :
    (debounceRun initialDebState lostWriteEvents).2 =
      [DebEffect.wrote 1, DebEffect.rejectedSuperseded 1, DebEffect.resolved 2] ∧
    writesOf (debounceRun initialDebState lostWriteEvents).2 = [1] ∧
    supersededOf (debounceRun initialDebState lostWriteEvents).2 = [1] ∧
    (debounceRun initialDebState lostWriteEvents).1.pendingData = none ∧
    (debounceRun initialDebState lostWriteEvents).1.liveTimers = [] := by
  decide

end CoursePlayer
